import Mathlib

/-!
Verification of the auth-service URL-shortener core against its source.

Strings are modelled as lists of Unicode code points (`List Char`); JavaScript
null/undefined distinctions are modelled with `Option` (and, where the
difference between the two is observable, with a dedicated sum type).
Each definition carries a reference to the source location it embeds.
-/

namespace Shortener

/-- A JS string, as a list of Unicode code points. -/
abbrev Str := List Char

/-! ## Key Validator — `processKey` (src/utils/link.util.ts) -/

/-- Membership in the character class tested by the `processKey` regex:
digits, ASCII letters, the escaped range from `\u0080` to `￿` (with
the `u` flag this covers exactly the code points 0x80..0xFFFF), slash,
and dash. -/
def allowedChar (c : Char) : Bool :=
  decide (0x30 ≤ c.toNat ∧ c.toNat ≤ 0x39) ||
  decide (0x41 ≤ c.toNat ∧ c.toNat ≤ 0x5A) ||
  decide (0x61 ≤ c.toNat ∧ c.toNat ≤ 0x7A) ||
  decide (0x80 ≤ c.toNat ∧ c.toNat ≤ 0xFFFF) ||
  decide (c = '/') || decide (c = '-')

def isSlash (c : Char) : Bool := decide (c = '/')

/-- The replacement `key.replace(/^\/+|\/+$/g, '')`: remove the maximal
leading run and the maximal trailing run of slashes. -/
def stripSlashes (s : Str) : Str :=
  ((s.dropWhile isSlash).reverse.dropWhile isSlash).reverse

/-- `processKey` from src/utils/link.util.ts: reject any string with a
character outside the allowed class, strip leading/trailing slashes, and
reject when the stripped result is empty. -/
def processKey (key : Str) : Option Str :=
  if key.all allowedChar then
    if (stripSlashes key).isEmpty then none else some (stripSlashes key)
  else none

/-! ## `truncate` (src/utils/link.util.ts) -/

/-- The end index computed by JavaScript `slice(0, e)` on a string of length
`len`: a negative `e` counts from the end, clamped at 0. -/
def jsSliceEnd (len : Nat) (e : Int) : Nat :=
  if e < 0 then ((len : Int) + e).toNat else min e.toNat len

/-- `truncate(str, length)` from src/utils/link.util.ts.  `none` models a
null (or undefined) argument; the `!str` test also catches the empty
string, which is returned unchanged. -/
def truncate (str : Option Str) (n : Nat) : Option Str :=
  match str with
  | none => none
  | some s =>
    if s.isEmpty || s.length ≤ n then some s
    else some (s.take (jsSliceEnd s.length ((n : Int) - 3)) ++ ("...").data)

/-! ### Lemmas on slash stripping -/

theorem dropWhile_idem (p : Char → Bool) (l : Str) :
    (l.dropWhile p).dropWhile p = l.dropWhile p := by
  induction l with
  | nil => rfl
  | cons a t ih =>
    by_cases h : p a = true
    · rw [List.dropWhile_cons_of_pos h]; exact ih
    · rw [List.dropWhile_cons_of_neg h, List.dropWhile_cons_of_neg h]

theorem dropWhile_append_single (p : Char → Bool) (a : Char) (h : p a = false) :
    ∀ l : Str, (l ++ [a]).dropWhile p = l.dropWhile p ++ [a] := by
  intro l
  induction l with
  | nil => simp [List.dropWhile_cons, h]
  | cons x xs ih =>
    by_cases hx : p x = true
    · simp only [List.cons_append, List.dropWhile_cons_of_pos hx, ih]
    · simp only [List.cons_append, List.dropWhile_cons_of_neg hx]

theorem dropWhile_head_false (p : Char → Bool) (l : Str) (a : Char) (t : Str)
    (h : l.dropWhile p = a :: t) : p a = false := by
  induction l with
  | nil => simp [List.dropWhile] at h
  | cons x xs ih =>
    by_cases hx : p x = true
    · rw [List.dropWhile_cons_of_pos hx] at h; exact ih h
    · rw [List.dropWhile_cons_of_neg hx] at h
      cases h
      exact Bool.not_eq_true _ ▸ Bool.eq_false_iff.mpr hx

/-- Removing the trailing slash run of `a :: t` keeps the non-slash head. -/
theorem backStrip_cons (a : Char) (t : Str) (h : isSlash a = false) :
    ((a :: t).reverse.dropWhile isSlash).reverse =
      a :: (t.reverse.dropWhile isSlash).reverse := by
  rw [List.reverse_cons, dropWhile_append_single isSlash a h, List.reverse_append]
  rfl

theorem stripSlashes_idem (l : Str) :
    stripSlashes (stripSlashes l) = stripSlashes l := by
  unfold stripSlashes
  generalize hA : l.dropWhile isSlash = A
  rcases hB : (A.reverse.dropWhile isSlash).reverse with _ | ⟨b, tb⟩
  · simp [List.dropWhile]
  · have hfix : (b :: tb).dropWhile isSlash = b :: tb := by
      cases A with
      | nil => simp [List.dropWhile] at hB
      | cons a ta =>
        have ha : isSlash a = false := dropWhile_head_false isSlash l a ta hA
        rw [backStrip_cons a ta ha] at hB
        have hb : b = a := by cases hB; rfl
        subst hb
        exact List.dropWhile_cons_of_neg (by simp [ha])
    rw [hfix, ← hB, List.reverse_reverse, dropWhile_idem, hB]

theorem mem_dropWhile (p : Char → Bool) (c : Char) (l : Str)
    (h : c ∈ l.dropWhile p) : c ∈ l := by
  induction l with
  | nil => simp [List.dropWhile] at h
  | cons x xs ih =>
    by_cases hx : p x = true
    · rw [List.dropWhile_cons_of_pos hx] at h
      exact List.mem_cons_of_mem x (ih h)
    · rwa [List.dropWhile_cons_of_neg hx] at h

theorem mem_stripSlashes (c : Char) (l : Str) (h : c ∈ stripSlashes l) : c ∈ l := by
  unfold stripSlashes at h
  rw [List.mem_reverse] at h
  have h1 := mem_dropWhile isSlash c _ h
  rw [List.mem_reverse] at h1
  exact mem_dropWhile isSlash c _ h1

/-! ## Data model

`StoredLink` is the `Link` row of the Prisma schema (migration in the
repository), restricted to the fields the handlers read.  Timestamps are
epoch milliseconds modelled as `Int`. -/

structure StoredLink where
  key : Str
  url : Str
  title : Option Str
  description : Option Str
  image : Option Str
  archived : Bool
  expiresAt : Option Int
  clicks : Int
  userId : Option Str
deriving DecidableEq

/-- The object serialized into Redis by `handleCreateLink`
(src/controller/link.controller.ts lines 75-87): only `url`, `title`,
`description`, `image` appear in the `JSON.stringify` literal. -/
structure CreationCache where
  url : Str
  title : Option Str
  description : Option Str
  image : Option Str
deriving DecidableEq

/-- A value held in Redis: either the full stored row serialized by the
read-path write-back (`JSON.stringify(link)` of the Prisma record), or
the four-field object written at creation time.  `JSON.parse` of either
recovers the same structure, so serialization is modelled as the
identity on this type. -/
inductive CacheVal where
  | full (r : StoredLink)
  | creation (c : CreationCache)
deriving DecidableEq

structure CacheEntry where
  key : Str
  val : CacheVal
  expireAt : Option Int
deriving DecidableEq

abbrev Cache := List CacheEntry

/-- The Prisma `Link` table: a list of rows with unique `key`. -/
abbrev Store := List StoredLink

structure SysState where
  cache : Cache
  store : Store
deriving DecidableEq

/-! ## Cache Layer operations (redis) -/

def cacheFind (c : Cache) (k : Str) : Option CacheEntry :=
  c.find? (fun e => decide (e.key = k))

/-- Liveness of an entry at wall-clock `now` (epoch milliseconds): Redis
evicts a key at its `EXAT` time (epoch seconds), so an entry whose
expiry has been reached reads as absent.  The millisecond clock is
converted to seconds with the same integer truncation used to compute
the `EXAT` value; the sub-second rounding of the boundary instant (a
float division in the source) is not significant to any claim. -/
def entryLive (e : CacheEntry) (now : Int) : Bool :=
  match e.expireAt with
  | some t => decide (now / 1000 < t)
  | none => true

/-- `redisClient.get(key)` at time `now`: an entry whose `EXAT` has been
reached has been evicted and answers nil. -/
def cacheGet (c : Cache) (k : Str) (now : Int) : Option CacheVal :=
  match cacheFind c k with
  | none => none
  | some e => if entryLive e now then some e.val else none

/-- `redisClient.del(key)`. -/
def cacheDel (c : Cache) (k : Str) : Cache :=
  c.filter (fun e => decide (¬ e.key = k))

/-- `redisClient.set(key, v)` with an optional `EXAT` expiry; an
unconditional SET replaces any existing entry (and its TTL). -/
def cacheSet (c : Cache) (k : Str) (v : CacheVal) (exp : Option Int) : Cache :=
  ⟨k, v, exp⟩ :: cacheDel c k

/-! ## Link Store operations (Prisma) -/

/-- `prismaClient.link.findUnique({ where: { key } })`. -/
def findByKey (st : Store) (k : Str) : Option StoredLink :=
  st.find? (fun r => decide (r.key = k))

/-- `prismaClient.link.update({ where: { key }, data })`: rewrite the row
whose `key` matches. -/
def storeUpdate (st : Store) (k : Str) (f : StoredLink → StoredLink) : Store :=
  st.map (fun r => if r.key = k then f r else r)

/-! ## Click Updater — `updateLinkClicksWorker`
(src/worker/updateLinkClick.worker.js) -/

/-- A JavaScript number, with NaN (produced by `undefined + 1`). -/
inductive JsNum where
  | nan
  | num (n : Int)
deriving DecidableEq

/-- The `workerData` payload built by `handleGetLink`. -/
structure WorkerData where
  key : Str
  clicks : JsNum
deriving DecidableEq

/-- The worker body: it destructures only `key` from `workerData` and runs
`update` with `clicks: { increment: 1 }`; a missing row makes the update
reject (`none`). -/
def updateLinkClicksWorker (wd : WorkerData) (st : Store) : Option Store :=
  match findByKey st wd.key with
  | none => none
  | some _ => some (storeUpdate st wd.key (fun r => { r with clicks := r.clicks + 1 }))

/-! ## Link Preview Renderer — `generateLinkPreview`
(src/utils/generateLinkPreview.util.ts) -/

/-- A JavaScript `string | null | undefined` value, needed because the
default parameter values of `generateLinkPreview` apply only to
`undefined`, not to `null`. -/
inductive JsStr where
  | undef
  | nullv
  | str (s : Str)
deriving DecidableEq

/-- Default-parameter semantics: the default replaces `undefined` only. -/
def applyDefault (v : JsStr) (d : Str) : JsStr :=
  match v with
  | .undef => .str d
  | x => x

/-- Template-literal interpolation of a `string | null` value. -/
def jsToText : JsStr → Str
  | .undef => ("undefined").data
  | .nullv => ("null").data
  | .str s => s

/-- The template literal of `generateLinkPreview`, with the interpolated
title, description and image. -/
def previewHtml (t d i : Str) : Str :=
  ("\n      <html>\n      <head>\n        <meta property=\"og:title\" content=\"").data ++ t ++
  ("\" />\n        <meta property=\"og:description\" content=\"").data ++ d ++
  ("\" />\n        <meta property=\"og:image\" content=\"").data ++ i ++
  ("\" />\n      </head>\n    </html>\n      ").data

/-- `generateLinkPreview(title, description, image)` with declared defaults
`title = 'Link Preview'`, `description = 'Link Description'`,
`image = '#'`. -/
def generateLinkPreview (title description image : JsStr) : Str :=
  previewHtml
    (jsToText (applyDefault title ("Link Preview").data))
    (jsToText (applyDefault description ("Link Description").data))
    (jsToText (applyDefault image ("#").data))

/-! ## Redirect Resolver — `handleGetLink`
(src/controller/link.controller.ts lines 150-211) -/

/-- The fields of the JS object `link` that the gating, preview and
dispatch code of `handleGetLink` reads.  A field missing from the object
(as on a creation-time cache entry) is `none` or `false`, matching the
falsy-test semantics of the source (`link.expiresAt && ...`,
`if (link.archived)`, `link.clicks + 1`). -/
structure LinkView where
  url : Str
  title : Option Str
  description : Option Str
  image : Option Str
  archived : Bool
  expiresAt : Option Int
  clicks : Option Int
deriving DecidableEq

def viewOfStored (r : StoredLink) : LinkView :=
  { url := r.url, title := r.title, description := r.description,
    image := r.image, archived := r.archived, expiresAt := r.expiresAt,
    clicks := some r.clicks }

/-- Reading a parsed cache value: a creation-time entry has no
`archived` / `expiresAt` / `clicks` properties, so they read as falsy /
undefined. -/
def viewOfCacheVal : CacheVal → LinkView
  | .full r => viewOfStored r
  | .creation c =>
    { url := c.url, title := c.title, description := c.description,
      image := c.image, archived := false, expiresAt := none, clicks := none }

inductive Outcome where
  | badRequest
  | notFound
  | gone (msg : Str)
  | botPreview (html : Str)
  | redirect (url : Str)
deriving DecidableEq

def isGone : Outcome → Bool
  | .gone _ => true
  | _ => false

def expiredMsg : Str := ("Link expired").data
def archivedMsg : Str := ("Link archived").data

/-- `link.expiresAt && new Date(link.expiresAt) < new Date()`: a set
expiry that is strictly before the current time. -/
def isExpired (expiresAt : Option Int) (now : Int) : Bool :=
  match expiresAt with
  | some t => decide (t < now)
  | none => false

/-- `undefined + 1` is NaN; `n + 1` is a number. -/
def jsPlusOne : Option Int → JsNum
  | none => .nan
  | some n => .num (n + 1)

def jsOfOpt : Option Str → JsStr
  | none => .nullv
  | some s => .str s

/-- Cache-aside lookup of `handleGetLink` at request time `now`: try
Redis, on miss query Prisma; on a store hit write the full record back
to Redis with no options (no NX, no expiry).  Returns the view the rest
of the handler uses, and the cache after the lookup. -/
def lookupLink (s : SysState) (key : Str) (now : Int) : Option (LinkView × Cache) :=
  match cacheGet s.cache key now with
  | some v => some (viewOfCacheVal v, s.cache)
  | none =>
    match findByKey s.store key with
    | none => none
    | some r => some (viewOfStored r, cacheSet s.cache key (.full r) none)

/-- The gating, bot branch and redirect branch of `handleGetLink` applied
to the resolved view. -/
def serve (key : Str) (v : LinkView) (isBot : Bool) (now : Int) :
    Outcome × Option WorkerData :=
  if isExpired v.expiresAt now then (.gone expiredMsg, none)
  else if v.archived then (.gone archivedMsg, none)
  else if isBot then
    (.botPreview (generateLinkPreview (jsOfOpt v.title) (jsOfOpt v.description)
      (jsOfOpt v.image)), none)
  else (.redirect v.url, some ⟨key, jsPlusOne v.clicks⟩)

/-- `handleGetLink`: outcome, state after the request, and the payload of
the fire-and-forget click dispatch when one was started. -/
def handleGetLink (s : SysState) (key : Str) (isBot : Bool) (now : Int) :
    Outcome × SysState × Option WorkerData :=
  if key.isEmpty then (.badRequest, s, none)
  else
    match lookupLink s key now with
    | none => (.notFound, s, none)
    | some (v, cache1) =>
      let (o, wd) := serve key v isBot now
      (o, ⟨cache1, s.store⟩, wd)

/-! ## Link creation — `handleCreateLink`
(src/controller/link.controller.ts lines 27-91) and
`checkIfKeyExists` (src/utils/link.util.ts) -/

def reservedKeys : List Str := [("blog").data, ("pricing").data, ("privacy").data]

/-- `checkIfKeyExists`: reserved keys count as taken, then the store is
consulted. -/
def checkIfKeyExists (st : Store) (k : Str) : Bool :=
  decide (k ∈ reservedKeys) || (findByKey st k).isSome

/-- An element of the `images` array of the unfurled open-graph
metadata. -/
structure ImageMeta where
  secure_url : Option Str
  url : Option Str
deriving DecidableEq

/-- The destructured `open_graph` metadata; `none` models an absent
(undefined) property, covering also `open_graph` itself being absent. -/
structure Metadata where
  title : Option Str
  description : Option Str
  images : List ImageMeta
deriving DecidableEq

/-- `a || b` on `string | undefined` operands: an absent or empty left
operand falls through. -/
def jsOrOpt (a b : Option Str) : Option Str :=
  match a with
  | none => b
  | some s => if s.isEmpty then b else some s

/-- `x || null`: empty string and undefined collapse to null. -/
def orNull (x : Option Str) : Option Str :=
  match x with
  | none => none
  | some s => if s.isEmpty then none else some s

/-- `images && images.length > 0 ? images[0]?.secure_url || images[0]?.url
: undefined`. -/
def metaImage (m : Metadata) : Option Str :=
  match m.images.head? with
  | none => none
  | some im => jsOrOpt im.secure_url im.url

/-- `truncate(title, 120) || null`. -/
def storedTitle (m : Metadata) : Option Str := orNull (truncate m.title 120)

/-- `truncate(description || '', 240) || null`. -/
def storedDescription (m : Metadata) : Option Str :=
  orNull (truncate (some (m.description.getD [])) 240)

/-- `image || null`. -/
def storedImage (m : Metadata) : Option Str := orNull (metaImage m)

inductive CreateOutcome where
  | badReq (msg : Str)
  | conflict
  | created
deriving DecidableEq

def missingMsg : Str := ("Link and Key are required!").data
def invalidKeyMsg : Str := ("Invalid Key!").data

/-- The optional `EXAT` of the creation-time cache write:
`new Date(expiresAt).getTime() / 1000`, skipped by the `exat && ...`
spread when falsy (the JS float division by 1000 is modelled as integer
division; no claim depends on the numeric value). -/
def creationExat (expiresAt : Option Int) : Option Int :=
  match expiresAt with
  | some t => if t / 1000 = 0 then none else some (t / 1000)
  | none => none

/-- The value of the creation-time cache write: the four-field
`JSON.stringify` literal. -/
def creationVal (url : Str) (meta : Metadata) : CacheVal :=
  .creation ⟨url, storedTitle meta, storedDescription meta, storedImage meta⟩

/-- `handleCreateLink` at request time `now`: note that `processKey(key)`
is used only as a validity test — the raw `key` from the request body is
what is passed to `checkIfKeyExists`, to `prisma.link.create` and to
`redisClient.set`.  The Redis write uses `NX: true` (it succeeds only if
the key reads as absent, evicted entries included) and the `EXAT` of
`creationExat`. -/
def handleCreateLink (s : SysState) (userId : Option Str) (url key : Str)
    (expiresAt : Option Int) (meta : Metadata) (now : Int) :
    CreateOutcome × SysState :=
  if url.isEmpty || key.isEmpty then (.badReq missingMsg, s)
  else if (processKey key).isNone then (.badReq invalidKeyMsg, s)
  else if checkIfKeyExists s.store key then (.conflict, s)
  else
    let newLink : StoredLink :=
      { key := key, url := url, title := storedTitle meta,
        description := storedDescription meta, image := storedImage meta,
        archived := false, expiresAt := expiresAt, clicks := 0,
        userId := userId }
    let store1 : Store := newLink :: s.store
    let cache1 : Cache :=
      if (cacheGet s.cache key now).isNone then
        cacheSet s.cache key (creationVal url meta) (creationExat expiresAt)
      else s.cache
    (.created, ⟨cache1, store1⟩)

/-! ## Archival — `handleLinkArchive`
(src/controller/link.controller.ts lines 225-263) -/

inductive ArchiveOutcome where
  | badRequest
  | notFound
  | conflict
  | ok
deriving DecidableEq

/-- `handleLinkArchive`: absent row is 404, already-archived row is 409
(both leave all state untouched); otherwise the Redis entry is deleted
and the row is updated to `archived: true`. -/
def handleLinkArchive (s : SysState) (key : Str) : ArchiveOutcome × SysState :=
  if key.isEmpty then (.badRequest, s)
  else
    match findByKey s.store key with
    | none => (.notFound, s)
    | some r =>
      if r.archived then (.conflict, s)
      else
        (.ok, ⟨cacheDel s.cache key,
          storeUpdate s.store key (fun l => { l with archived := true })⟩)

/-! ## Infrastructure lemmas -/

theorem isEmpty_false_of_ne {l : Str} (h : l ≠ []) : l.isEmpty = false := by
  cases l with
  | nil => exact absurd rfl h
  | cons a t => rfl

theorem cacheFind_set_self (c : Cache) (k : Str) (v : CacheVal) (e : Option Int) :
    cacheFind (cacheSet c k v e) k = some ⟨k, v, e⟩ := by
  unfold cacheFind cacheSet
  exact List.find?_cons_of_pos _ (by simp)

theorem cacheGet_set_self (c : Cache) (k : Str) (v : CacheVal) (e : Option Int)
    (now : Int) (h : entryLive ⟨k, v, e⟩ now = true) :
    cacheGet (cacheSet c k v e) k now = some v := by
  unfold cacheGet
  rw [cacheFind_set_self]
  show (if entryLive ⟨k, v, e⟩ now = true then some v else none) = some v
  rw [if_pos h]

theorem entryLive_none (k : Str) (v : CacheVal) (now : Int) :
    entryLive ⟨k, v, none⟩ now = true := rfl

theorem cacheGet_of_find_none (c : Cache) (k : Str) (now : Int)
    (h : cacheFind c k = none) : cacheGet c k now = none := by
  unfold cacheGet
  rw [h]

theorem cacheFind_del_self (c : Cache) (k : Str) :
    cacheFind (cacheDel c k) k = none := by
  unfold cacheFind cacheDel
  induction c with
  | nil => rfl
  | cons a t ih =>
    by_cases h : a.key = k
    · rw [show (List.filter (fun e => decide (¬ e.key = k)) (a :: t)) =
        List.filter (fun e => decide (¬ e.key = k)) t by simp [List.filter, h]]
      exact ih
    · rw [show (List.filter (fun e => decide (¬ e.key = k)) (a :: t)) =
        a :: List.filter (fun e => decide (¬ e.key = k)) t by simp [List.filter, h]]
      rw [List.find?_cons_of_neg _ (by simp [h])]
      exact ih

theorem cacheGet_del_self (c : Cache) (k : Str) (now : Int) :
    cacheGet (cacheDel c k) k now = none := by
  unfold cacheGet
  rw [cacheFind_del_self]

theorem findByKey_update_self (st : Store) (k : Str) (f : StoredLink → StoredLink)
    (hf : ∀ r, (f r).key = r.key) :
    findByKey (storeUpdate st k f) k = (findByKey st k).map f := by
  unfold findByKey storeUpdate
  induction st with
  | nil => rfl
  | cons a t ih =>
    by_cases h : a.key = k
    · simp only [List.map_cons, if_pos h, List.find?]
      rw [show (decide ((f a).key = k)) = true by simp [hf a, h],
        show (decide (a.key = k)) = true by simp [h]]
      rfl
    · simp only [List.map_cons, if_neg h, List.find?]
      rw [show (decide (a.key = k)) = false by simp [h]]
      exact ih

/-! ## Claim C2 — key normalization -/

/-- A code point above the whole BMP: above printable ASCII, hence in the
allowed set as the claim states it, but outside the range accepted by the
source regex. -/
def astralChar : Char := Char.ofNat 0x10000

/-- C2 counterexample: the one-character key consisting of the code point
U+10000 contains only characters above the printable-ASCII threshold
(so the claim predicts that `processKey` strips nothing and returns the
key unchanged, the stripped result being nonempty), yet `processKey`
returns invalid, because the source regex admits only code points up to
U+FFFF. -/
theorem C2_counterexample :
    0x7E < astralChar.toNat ∧
    stripSlashes [astralChar] = [astralChar] ∧
    [astralChar] ≠ ([] : Str) ∧
    processKey [astralChar] = none := by decide

/-- C2 (amended): with the allowed set capped at U+FFFF — digits, ASCII
letters, code points U+0080..U+FFFF, slash and dash — `processKey`
returns invalid on any key containing a character outside that set;
on a key of allowed characters it returns the key with leading and
trailing slashes stripped, or invalid when the stripped result is empty;
and it is idempotent on every accepted key. -/
theorem C2_processKey_amended (s : Str) :
    ((∃ c ∈ s, allowedChar c = false) → processKey s = none) ∧
    ((∀ c ∈ s, allowedChar c = true) →
      processKey s =
        if (stripSlashes s).isEmpty then none else some (stripSlashes s)) ∧
    (∀ k, processKey s = some k → processKey k = some k) := by
  refine ⟨?_, ?_, ?_⟩
  · rintro ⟨c, hc, hcf⟩
    have hall : s.all allowedChar = false := by
      rw [Bool.eq_false_iff]
      intro h
      rw [List.all_eq_true] at h
      rw [h c hc] at hcf
      simp at hcf
    rw [processKey, if_neg (by simp [hall])]
  · intro h
    rw [processKey, if_pos (List.all_eq_true.mpr h)]
  · intro k hk
    rw [processKey] at hk
    by_cases hall : s.all allowedChar = true
    · rw [if_pos hall] at hk
      by_cases he : (stripSlashes s).isEmpty = true
      · rw [if_pos he] at hk
        exact absurd hk (by simp)
      · rw [if_neg he] at hk
        have hkeq : k = stripSlashes s := (Option.some_inj.mp hk).symm
        subst hkeq
        have hallk : (stripSlashes s).all allowedChar = true := by
          rw [List.all_eq_true]
          intro c hc
          exact List.all_eq_true.mp hall c (mem_stripSlashes c s hc)
        rw [processKey, if_pos hallk, stripSlashes_idem, if_neg he]
    · rw [if_neg hall] at hk
      exact absurd hk (by simp)

/-- Witness for C2 (amended) at the concrete key `/ab-c/`. -/
theorem C2_processKey_amended_witness :
    (∀ c ∈ ("/ab-c/").data, allowedChar c = true) ∧
    processKey (("/ab-c/").data) =
      (if (stripSlashes (("/ab-c/").data)).isEmpty then none
       else some (stripSlashes (("/ab-c/").data))) ∧
    processKey (("ab-c").data) = some (("ab-c").data) :=
  ⟨by decide, (C2_processKey_amended (("/ab-c/").data)).2.1 (by decide),
    (C2_processKey_amended (("/ab-c/").data)).2.2 (("ab-c").data) (by decide)⟩

/-! ## Claim C9 — truncate -/

/-- C9: for every string and every bound of at least 3 (covering the
bounds 120 used for titles and 240 used for descriptions), `truncate`
returns a null, empty, or short-enough string unchanged, and otherwise
returns the first `n - 3` characters followed by the three-character
ellipsis, a string of length exactly `n`. -/
theorem C9_truncate (s : Str) (n : Nat) (hn : 3 ≤ n) :
    truncate none n = none ∧
    (s.length ≤ n → truncate (some s) n = some s) ∧
    (n < s.length →
      truncate (some s) n = some (s.take (n - 3) ++ ("...").data) ∧
      (s.take (n - 3) ++ ("...").data).length = n) := by
  refine ⟨rfl, ?_, ?_⟩
  · intro h
    simp [truncate, h]
  · intro h
    have hne : s.isEmpty = false := by
      cases s with
      | nil => simp at h
      | cons a t => rfl
    have hlt : ¬ s.length ≤ n := by omega
    have hslice : jsSliceEnd s.length ((n : Int) - 3) = n - 3 := by
      unfold jsSliceEnd
      rw [if_neg (by omega)]
      have h1 : ((n : Int) - 3).toNat = n - 3 := by omega
      rw [h1]
      exact Nat.min_eq_left (by omega)
    refine ⟨by simp [truncate, hne, hlt, hslice], ?_⟩
    have h3 : (("...").data).length = 3 := rfl
    rw [List.length_append, List.length_take, h3, Nat.min_eq_left (by omega)]
    omega

/-- Witness for C9 at a 130-character string and the title bound 120. -/
theorem C9_truncate_witness :
    truncate none 120 = none ∧
    ((List.replicate 130 'a').length ≤ 120 →
      truncate (some (List.replicate 130 'a')) 120 = some (List.replicate 130 'a')) ∧
    (120 < (List.replicate 130 'a').length →
      truncate (some (List.replicate 130 'a')) 120 =
        some ((List.replicate 130 'a').take (120 - 3) ++ ("...").data) ∧
      ((List.replicate 130 'a').take (120 - 3) ++ ("...").data).length = 120) :=
  C9_truncate (List.replicate 130 'a') 120 (by decide)

/-! ## Claim C1 — expiry/archival gating -/

theorem isExpired_iff (e : Option Int) (now : Int) :
    isExpired e now = true ↔ ∃ t, e = some t ∧ t < now := by
  cases e with
  | none => simp [isExpired]
  | some t => simp [isExpired]

theorem isExpired_false_cases (e : Option Int) (now : Int)
    (h : isExpired e now = false) : e = none ∨ ∃ t, e = some t ∧ ¬ t < now := by
  cases e with
  | none => exact Or.inl rfl
  | some t => exact Or.inr ⟨t, rfl, by simpa [isExpired] using h⟩

theorem handleGetLink_hit (s : SysState) (key : Str) (isBot : Bool) (now : Int)
    (v : LinkView) (c1 : Cache) (hk : key ≠ [])
    (hv : lookupLink s key now = some (v, c1)) :
    handleGetLink s key isBot now =
      ((serve key v isBot now).1, ⟨c1, s.store⟩, (serve key v isBot now).2) := by
  unfold handleGetLink
  rw [if_neg (by simp [isEmpty_false_of_ne hk]), hv]

/-- C1: whenever resolution reaches a full stored record, the outcome is
`Gone` exactly when the record is archived or has an expiry strictly in
the past, and a redirect or bot preview is only produced for a record
that is not archived whose expiry is null or not in the past. -/
theorem C1_gating (s : SysState) (key : Str) (isBot : Bool) (now : Int)
    (r : StoredLink) (c1 : Cache)
    (hk : key ≠ [])
    (hv : lookupLink s key now = some (viewOfStored r, c1)) :
    (isGone (handleGetLink s key isBot now).1 = true ↔
      (r.archived = true ∨ ∃ t, r.expiresAt = some t ∧ t < now)) ∧
    (∀ u, (handleGetLink s key isBot now).1 = .redirect u →
      r.archived = false ∧
        (r.expiresAt = none ∨ ∃ t, r.expiresAt = some t ∧ ¬ t < now)) ∧
    (∀ h, (handleGetLink s key isBot now).1 = .botPreview h →
      r.archived = false ∧
        (r.expiresAt = none ∨ ∃ t, r.expiresAt = some t ∧ ¬ t < now)) := by
  rw [handleGetLink_hit s key isBot now (viewOfStored r) c1 hk hv]
  by_cases hex : isExpired r.expiresAt now = true
  · have hser : serve key (viewOfStored r) isBot now = (.gone expiredMsg, none) := by
      unfold serve viewOfStored
      rw [if_pos hex]
    rw [hser]
    refine ⟨?_, ?_, ?_⟩
    · exact ⟨fun _ => Or.inr ((isExpired_iff r.expiresAt now).mp hex), fun _ => rfl⟩
    · intro u hu
      exact absurd hu (by simp)
    · intro h hh
      exact absurd hh (by simp)
  · have hex0 : isExpired r.expiresAt now = false := Bool.eq_false_iff.mpr hex
    by_cases har : r.archived = true
    · have hser : serve key (viewOfStored r) isBot now = (.gone archivedMsg, none) := by
        unfold serve viewOfStored
        rw [if_neg hex, if_pos har]
      rw [hser]
      refine ⟨⟨fun _ => Or.inl har, fun _ => rfl⟩, ?_, ?_⟩
      · intro u hu
        exact absurd hu (by simp)
      · intro h hh
        exact absurd hh (by simp)
    · have har0 : r.archived = false := Bool.eq_false_iff.mpr har
      have hside : r.archived = false ∧
          (r.expiresAt = none ∨ ∃ t, r.expiresAt = some t ∧ ¬ t < now) :=
        ⟨har0, isExpired_false_cases r.expiresAt now hex0⟩
      have hnot : ¬ (r.archived = true ∨ ∃ t, r.expiresAt = some t ∧ t < now) := by
        rintro (h1 | h2)
        · exact har h1
        · exact hex ((isExpired_iff r.expiresAt now).mpr h2)
      by_cases hb : isBot = true
      · have hser : serve key (viewOfStored r) isBot now =
            (.botPreview (generateLinkPreview (jsOfOpt r.title)
              (jsOfOpt r.description) (jsOfOpt r.image)), none) := by
          unfold serve
          simp only [viewOfStored]
          rw [if_neg hex, if_neg har, if_pos hb]
        rw [hser]
        refine ⟨⟨fun h => absurd h (by simp [isGone]), fun h => absurd h hnot⟩, ?_, ?_⟩
        · intro u hu
          exact absurd hu (by simp)
        · intro h hh
          exact hside
      · have hser : serve key (viewOfStored r) isBot now =
            (.redirect r.url, some ⟨key, jsPlusOne (some r.clicks)⟩) := by
          unfold serve
          simp only [viewOfStored]
          rw [if_neg hex, if_neg har, if_neg hb]
        rw [hser]
        refine ⟨⟨fun h => absurd h (by simp [isGone]), fun h => absurd h hnot⟩, ?_, ?_⟩
        · intro u hu
          exact hside
        · intro h hh
          exact absurd hh (by simp)

/-- Concrete stored record for the C1 witness: archived with no expiry. -/
def r1W : StoredLink :=
  { key := ("k1").data, url := ("https://example.com").data, title := none,
    description := none, image := none, archived := true, expiresAt := none,
    clicks := 0, userId := none }

/-- Concrete system state for the C1 witness: the record sits in the cache. -/
def s1W : SysState := ⟨[⟨("k1").data, .full r1W, none⟩], []⟩

/-- Witness for C1 at an archived record resolved from the cache. -/
theorem C1_gating_witness :
    (isGone (handleGetLink s1W (("k1").data) false 0).1 = true ↔
      (r1W.archived = true ∨ ∃ t, r1W.expiresAt = some t ∧ t < 0)) ∧
    (∀ u, (handleGetLink s1W (("k1").data) false 0).1 = .redirect u →
      r1W.archived = false ∧
        (r1W.expiresAt = none ∨ ∃ t, r1W.expiresAt = some t ∧ ¬ t < 0)) ∧
    (∀ h, (handleGetLink s1W (("k1").data) false 0).1 = .botPreview h →
      r1W.archived = false ∧
        (r1W.expiresAt = none ∨ ∃ t, r1W.expiresAt = some t ∧ ¬ t < 0)) :=
  C1_gating s1W (("k1").data) false 0 r1W s1W.cache (by decide) (by decide)

/-! ## Claim C3 — cache write-back on miss -/

/-- C3: when resolution misses the cache and finds the record in the
store, the handler leaves the full record in the cache under the key,
with no expiry on the entry, regardless of the gating outcome; a second
lookup for the key — at any later time, since the entry carries no
expiry — hits the cache and yields a view identical to the view of the
stored record. -/
theorem C3_writeback (s : SysState) (key : Str) (isBot : Bool) (now : Int)
    (r : StoredLink) (hk : key ≠ [])
    (hmiss : cacheGet s.cache key now = none)
    (hfind : findByKey s.store key = some r) :
    (∀ now2, cacheGet (handleGetLink s key isBot now).2.1.cache key now2 =
      some (.full r)) ∧
    cacheFind (handleGetLink s key isBot now).2.1.cache key =
      some ⟨key, .full r, none⟩ ∧
    (∀ now2, lookupLink (handleGetLink s key isBot now).2.1 key now2 =
      some (viewOfCacheVal (.full r),
        (handleGetLink s key isBot now).2.1.cache)) ∧
    viewOfCacheVal (.full r) = viewOfStored r := by
  have hv : lookupLink s key now =
      some (viewOfStored r, cacheSet s.cache key (.full r) none) := by
    unfold lookupLink
    rw [hmiss, hfind]
  rw [handleGetLink_hit s key isBot now (viewOfStored r)
    (cacheSet s.cache key (.full r) none) hk hv]
  refine ⟨fun now2 => cacheGet_set_self _ _ _ _ now2 (entryLive_none _ _ now2),
    cacheFind_set_self _ _ _ _, ?_, rfl⟩
  intro now2
  unfold lookupLink
  rw [cacheGet_set_self _ _ _ _ now2 (entryLive_none _ _ now2)]

/-- Concrete stored record for the C3 witness. -/
def r3W : StoredLink :=
  { key := ("k3").data, url := ("https://example.net").data, title := none,
    description := none, image := none, archived := false, expiresAt := none,
    clicks := 2, userId := none }

/-- Concrete system state for the C3 witness: empty cache, record in store. -/
def s3W : SysState := ⟨[], [r3W]⟩

/-- Witness for C3 at a concrete miss-then-hit resolution. -/
theorem C3_writeback_witness :
    (∀ now2, cacheGet (handleGetLink s3W (("k3").data) false 7).2.1.cache
      (("k3").data) now2 = some (.full r3W)) ∧
    cacheFind (handleGetLink s3W (("k3").data) false 7).2.1.cache (("k3").data) =
      some ⟨("k3").data, .full r3W, none⟩ ∧
    (∀ now2, lookupLink (handleGetLink s3W (("k3").data) false 7).2.1
      (("k3").data) now2 =
      some (viewOfCacheVal (.full r3W),
        (handleGetLink s3W (("k3").data) false 7).2.1.cache)) ∧
    viewOfCacheVal (.full r3W) = viewOfStored r3W :=
  C3_writeback s3W (("k3").data) false 7 r3W (by decide) (by decide) (by decide)

/-! ## Claim C4 — store-level click increment -/

/-- C4: the worker persists an increment of the stored clicks counter by
exactly 1 and is completely insensitive to the clicks value carried in
the dispatch payload. -/
theorem C4_increment (k : Str) (c1 c2 : JsNum) (st : Store) (r : StoredLink)
    (h : findByKey st k = some r) :
    updateLinkClicksWorker ⟨k, c1⟩ st = updateLinkClicksWorker ⟨k, c2⟩ st ∧
    updateLinkClicksWorker ⟨k, c1⟩ st =
      some (storeUpdate st k (fun l => { l with clicks := l.clicks + 1 })) ∧
    findByKey (storeUpdate st k (fun l => { l with clicks := l.clicks + 1 })) k =
      some { r with clicks := r.clicks + 1 } := by
  refine ⟨rfl, ?_, ?_⟩
  · unfold updateLinkClicksWorker
    rw [show (⟨k, c1⟩ : WorkerData).key = k from rfl, h]
  · rw [findByKey_update_self st k
      (fun l => { l with clicks := l.clicks + 1 }) (fun l => rfl), h]
    rfl

/-- Concrete store for the C4 witness. -/
def r4W : StoredLink :=
  { key := ("k4").data, url := ("https://example.org").data, title := none,
    description := none, image := none, archived := false, expiresAt := none,
    clicks := 7, userId := none }

/-- Witness for C4: two dispatches with different payload clicks values
(NaN and 99) write the same store, and the stored count becomes 8. -/
theorem C4_increment_witness :
    updateLinkClicksWorker ⟨("k4").data, .nan⟩ [r4W] =
      updateLinkClicksWorker ⟨("k4").data, .num 99⟩ [r4W] ∧
    updateLinkClicksWorker ⟨("k4").data, .nan⟩ [r4W] =
      some (storeUpdate [r4W] (("k4").data)
        (fun l => { l with clicks := l.clicks + 1 })) ∧
    findByKey (storeUpdate [r4W] (("k4").data)
        (fun l => { l with clicks := l.clicks + 1 })) (("k4").data) =
      some { r4W with clicks := r4W.clicks + 1 } :=
  C4_increment (("k4").data) .nan (.num 99) [r4W] r4W (by decide)

/-! ## Claim C5 — bot preview defaults -/

/-- Concrete stored record for C5: active, with no title, description or
image (the store holds `null` in those columns). -/
def r5W : StoredLink :=
  { key := ("k5").data, url := ("https://example.com/5").data, title := none,
    description := none, image := none, archived := false, expiresAt := none,
    clicks := 0, userId := none }

def s5W : SysState := ⟨[], [r5W]⟩

/-- C5 (code bug): resolving an active link with absent title, description
and image for an automated client yields a preview whose og: meta tags
carry the literal text `null`, not the documented defaults: the default
parameter values of `generateLinkPreview` replace only `undefined`
arguments, and the handler always passes the stored `null` values. -/
theorem C5_preview_bug :
    (handleGetLink s5W (("k5").data) true 0).1 =
      .botPreview (previewHtml (("null").data) (("null").data) (("null").data)) ∧
    generateLinkPreview .nullv .nullv .nullv =
      previewHtml (("null").data) (("null").data) (("null").data) ∧
    generateLinkPreview .undef .undef .undef =
      previewHtml (("Link Preview").data) (("Link Description").data) (("#").data) ∧
    previewHtml (("null").data) (("null").data) (("null").data) ≠
      previewHtml (("Link Preview").data) (("Link Description").data) (("#").data) := by
  refine ⟨?_, rfl, rfl, by decide⟩
  rfl

/-! ## Claim C6 — persisted key is not normalized -/

def s6W : SysState := ⟨[], []⟩

def meta6W : Metadata := ⟨none, none, []⟩

/-- The record that creation with raw key `/abc/` actually persists. -/
def r6expected : StoredLink :=
  { key := ("/abc/").data, url := ("https://example.com").data, title := none,
    description := none, image := none, archived := false, expiresAt := none,
    clicks := 0, userId := none }

/-- C6 (code bug): a creation request with key `/abc/` is accepted
(`processKey` validates it and returns the normalized key `abc`), but the
handler discards the normalized key: the store row and the cache entry
are written under the raw key `/abc/`, and no row or entry exists under
`abc`. -/
theorem C6_rawkey_bug :
    processKey (("/abc/").data) = some (("abc").data) ∧
    (handleCreateLink s6W none (("https://example.com").data) (("/abc/").data)
      none meta6W 0).1 = .created ∧
    findByKey (handleCreateLink s6W none (("https://example.com").data)
      (("/abc/").data) none meta6W 0).2.store (("/abc/").data) = some r6expected ∧
    findByKey (handleCreateLink s6W none (("https://example.com").data)
      (("/abc/").data) none meta6W 0).2.store (("abc").data) = none ∧
    cacheGet (handleCreateLink s6W none (("https://example.com").data)
      (("/abc/").data) none meta6W 0).2.cache (("/abc/").data) 0 =
      some (.creation ⟨("https://example.com").data, none, none, none⟩) ∧
    cacheGet (handleCreateLink s6W none (("https://example.com").data)
      (("/abc/").data) none meta6W 0).2.cache (("abc").data) 0 = none := by
  refine ⟨by decide, rfl, by decide, by decide, by decide, by decide⟩

/-! ## Claim C7 — archival -/

/-- Equation for `handleLinkArchive` when the row exists. -/
theorem handleLinkArchive_found (s : SysState) (key : Str) (r : StoredLink)
    (hk : key ≠ []) (hf : findByKey s.store key = some r) :
    handleLinkArchive s key =
      if r.archived = true then (.conflict, s)
      else (.ok, ⟨cacheDel s.cache key,
        storeUpdate s.store key (fun l => { l with archived := true })⟩) := by
  unfold handleLinkArchive
  rw [if_neg (by simp [isEmpty_false_of_ne hk]), hf]

/-- Whatever the time and client type, serving a view with the archived
flag set is `Gone`. -/
theorem serve_archived_gone (key : Str) (v : LinkView) (isBot : Bool) (now : Int)
    (h : v.archived = true) : isGone (serve key v isBot now).1 = true := by
  unfold serve
  by_cases hex : isExpired v.expiresAt now = true
  · rw [if_pos hex]
    rfl
  · rw [if_neg hex, if_pos h]
    rfl

/-- C7: for a nonempty key, `handleLinkArchive` answers `NotFound` exactly
when no row has the key and `Conflict` exactly when the row is already
archived, leaving cache and store untouched in both error cases; on
success it sets the archived flag, removes the cache entry for the key,
and every subsequent resolution of the key is `Gone`. -/
theorem C7_archive (s : SysState) (key : Str) (hk : key ≠ []) :
    ((handleLinkArchive s key).1 = .notFound ↔ findByKey s.store key = none) ∧
    ((handleLinkArchive s key).1 = .conflict ↔
      ∃ r, findByKey s.store key = some r ∧ r.archived = true) ∧
    (findByKey s.store key = none → handleLinkArchive s key = (.notFound, s)) ∧
    (∀ r, findByKey s.store key = some r → r.archived = true →
      handleLinkArchive s key = (.conflict, s)) ∧
    (∀ r, findByKey s.store key = some r → r.archived = false →
      (handleLinkArchive s key).1 = .ok ∧
      findByKey (handleLinkArchive s key).2.store key =
        some { r with archived := true } ∧
      cacheFind (handleLinkArchive s key).2.cache key = none ∧
      (∀ isBot now,
        isGone (handleGetLink (handleLinkArchive s key).2 key isBot now).1 = true)) := by
  have hkey : key.isEmpty = false := isEmpty_false_of_ne hk
  rcases hf : findByKey s.store key with _ | r
  · have hA : handleLinkArchive s key = (.notFound, s) := by
      unfold handleLinkArchive
      rw [if_neg (by simp [hkey]), hf]
    rw [hA]
    refine ⟨by simp, by simp, fun _ => rfl, ?_, ?_⟩
    · intro r hr
      exact absurd hr (by simp)
    · intro r hr
      exact absurd hr (by simp)
  · have hA0 := handleLinkArchive_found s key r hk hf
    by_cases har : r.archived = true
    · rw [hA0, if_pos har]
      refine ⟨by simp, ⟨fun _ => ⟨r, rfl, har⟩, fun _ => rfl⟩, ?_, fun _ _ _ => rfl, ?_⟩
      · intro hno
        exact absurd hno (by simp)
      · intro r2 hr2 har2
        cases Option.some_inj.mp hr2
        rw [har2] at har
        exact absurd har (by simp)
    · have har0 : r.archived = false := Bool.eq_false_iff.mpr har
      rw [hA0, if_neg har]
      have hupd : findByKey
          (storeUpdate s.store key (fun l => { l with archived := true })) key =
          some { r with archived := true } := by
        rw [findByKey_update_self s.store key
          (fun l => { l with archived := true }) (fun l => rfl), hf]
        rfl
      refine ⟨by simp, ?_, ?_, ?_, ?_⟩
      · constructor
        · intro hok
          exact absurd hok (by simp)
        · rintro ⟨r2, hr2, har2⟩
          cases Option.some_inj.mp hr2
          rw [har0] at har2
          exact absurd har2 (by simp)
      · intro hno
        exact absurd hno (by simp)
      · intro r2 hr2 har2
        cases Option.some_inj.mp hr2
        rw [har0] at har2
        exact absurd har2 (by simp)
      · intro r2 hr2 har2
        cases Option.some_inj.mp hr2
        refine ⟨rfl, hupd, cacheFind_del_self s.cache key, ?_⟩
        intro isBot now
        have hv : lookupLink
            (⟨cacheDel s.cache key,
              storeUpdate s.store key (fun l => { l with archived := true })⟩ :
                SysState) key now =
            some (viewOfStored { r with archived := true },
              cacheSet (cacheDel s.cache key) key
                (.full { r with archived := true }) none) := by
          unfold lookupLink
          rw [show (⟨cacheDel s.cache key,
              storeUpdate s.store key (fun l => { l with archived := true })⟩ :
                SysState).cache = cacheDel s.cache key from rfl,
            cacheGet_del_self,
            show (⟨cacheDel s.cache key,
              storeUpdate s.store key (fun l => { l with archived := true })⟩ :
                SysState).store =
              storeUpdate s.store key (fun l => { l with archived := true }) from rfl,
            hupd]
        rw [handleGetLink_hit _ key isBot now _ _ hk hv]
        exact serve_archived_gone key _ isBot now rfl


/-- Concrete record and state for the C7 witness: one active record. -/
def r7W : StoredLink :=
  { key := ("k7").data, url := ("https://example.com/7").data, title := none,
    description := none, image := none, archived := false, expiresAt := none,
    clicks := 3, userId := none }

def s7W : SysState := ⟨[⟨("k7").data, .full r7W, none⟩], [r7W]⟩

/-- Witness for C7 at a concrete archival of an active record. -/
theorem C7_archive_witness :
    ((handleLinkArchive s7W (("k7").data)).1 = .notFound ↔
      findByKey s7W.store (("k7").data) = none) ∧
    ((handleLinkArchive s7W (("k7").data)).1 = .conflict ↔
      ∃ r, findByKey s7W.store (("k7").data) = some r ∧ r.archived = true) ∧
    (findByKey s7W.store (("k7").data) = none →
      handleLinkArchive s7W (("k7").data) = (.notFound, s7W)) ∧
    (∀ r, findByKey s7W.store (("k7").data) = some r → r.archived = true →
      handleLinkArchive s7W (("k7").data) = (.conflict, s7W)) ∧
    (∀ r, findByKey s7W.store (("k7").data) = some r → r.archived = false →
      (handleLinkArchive s7W (("k7").data)).1 = .ok ∧
      findByKey (handleLinkArchive s7W (("k7").data)).2.store (("k7").data) =
        some { r with archived := true } ∧
      cacheFind (handleLinkArchive s7W (("k7").data)).2.cache (("k7").data) = none ∧
      (∀ isBot now,
        isGone (handleGetLink (handleLinkArchive s7W (("k7").data)).2
          (("k7").data) isBot now).1 = true)) :=
  C7_archive s7W (("k7").data) (by decide)

/-! ## Claim C8 — reserved keys -/

/-- C8: a creation request with a nonempty url and a key from the reserved
set returns `Conflict` and leaves the whole state unchanged, whatever the
store and cache contain. -/
theorem C8_reserved (s : SysState) (uid : Option Str) (url key : Str)
    (exp : Option Int) (meta : Metadata) (now : Int)
    (hurl : url ≠ []) (hres : key ∈ reservedKeys) :
    handleCreateLink s uid url key exp meta now = (.conflict, s) := by
  have hck : checkIfKeyExists s.store key = true := by
    unfold checkIfKeyExists
    rw [decide_eq_true hres, Bool.true_or]
  have hcases : key = ("blog").data ∨ key = ("pricing").data ∨
      key = ("privacy").data := by
    simpa [reservedKeys] using hres
  rcases hcases with h | h | h <;>
    · subst h
      unfold handleCreateLink
      rw [if_neg (by rw [isEmpty_false_of_ne hurl]; decide),
        if_neg (by decide), if_pos hck]

/-- Witness for C8 at the reserved key `blog` over an empty store. -/
theorem C8_reserved_witness :
    handleCreateLink ⟨[], []⟩ none (("https://example.com").data)
      (("blog").data) none ⟨none, none, []⟩ 0 = (.conflict, ⟨[], []⟩) :=
  C8_reserved ⟨[], []⟩ none (("https://example.com").data) (("blog").data)
    none ⟨none, none, []⟩ 0 (by decide) (by decide)

/-! ## Claim C10 — shape of the creation-time cache entry -/

/-- Serving a view read from a creation-time cache entry: the absent
expiry and archived fields read as falsy, so the gates pass, and a human
client triggers a dispatch whose clicks value is `undefined + 1`, NaN. -/
theorem serve_creation (key : Str) (p : CreationCache) (isBot : Bool) (now : Int) :
    serve key (viewOfCacheVal (.creation p)) isBot now =
      if isBot then
        (.botPreview (generateLinkPreview (jsOfOpt p.title) (jsOfOpt p.description)
          (jsOfOpt p.image)), none)
      else (.redirect p.url, some ⟨key, JsNum.nan⟩) := by
  cases isBot <;> rfl

/-- Equation for an accepted `handleCreateLink` call over a state with no
row and no cache entry for the key. -/
theorem handleCreateLink_accepted (s : SysState) (uid : Option Str)
    (url key : Str) (exp : Option Int) (meta : Metadata) (now0 : Int)
    (hurl : url ≠ []) (hkey : key ≠ [])
    (hpk : processKey key ≠ none)
    (hres : key ∉ reservedKeys)
    (hst : findByKey s.store key = none)
    (hc : cacheFind s.cache key = none) :
    handleCreateLink s uid url key exp meta now0 =
      (.created, ⟨cacheSet s.cache key (creationVal url meta) (creationExat exp),
        ({ key := key, url := url, title := storedTitle meta,
           description := storedDescription meta, image := storedImage meta,
           archived := false, expiresAt := exp, clicks := 0,
           userId := uid } :: s.store)⟩) := by
  unfold handleCreateLink
  rw [if_neg (by
      rw [isEmpty_false_of_ne hurl, isEmpty_false_of_ne hkey]
      decide),
    if_neg (by rw [Option.isNone_iff_eq_none]; exact hpk),
    if_neg (by
      unfold checkIfKeyExists
      rw [decide_eq_false hres, hst]
      decide),
    cacheGet_of_find_none s.cache key now0 hc]
  rfl

/-- C10: an accepted creation writes exactly one cache entry for the key,
whose value carries only the url, title, description and image (no
archived flag, no expiry timestamp, no clicks, no key, no userId fields
exist on the value) and whose Redis eviction time is the `EXAT` derived
from the request expiry; while Redis still holds that entry (its `EXAT`
not yet reached), every resolution of the key is served from it,
evaluates the expiry and archival gates on the absent fields — so it is
never `Gone`, whatever the stored `expiresAt` says — and the click
payload dispatched for a human client is NaN, the sum of the absent
clicks field and 1. -/
theorem C10_creationCache (s : SysState) (uid : Option Str) (url key : Str)
    (exp : Option Int) (meta : Metadata) (now0 : Int)
    (hurl : url ≠ []) (hkey : key ≠ [])
    (hpk : processKey key ≠ none)
    (hres : key ∉ reservedKeys)
    (hst : findByKey s.store key = none)
    (hc : cacheFind s.cache key = none) :
    (handleCreateLink s uid url key exp meta now0).1 = .created ∧
    cacheFind (handleCreateLink s uid url key exp meta now0).2.cache key =
      some ⟨key, creationVal url meta, creationExat exp⟩ ∧
    creationVal url meta = .creation ⟨url, storedTitle meta,
      storedDescription meta, storedImage meta⟩ ∧
    viewOfCacheVal (creationVal url meta) =
      ⟨url, storedTitle meta, storedDescription meta, storedImage meta,
        false, none, none⟩ ∧
    (∀ isBot now,
      entryLive ⟨key, creationVal url meta, creationExat exp⟩ now = true →
      isGone (handleGetLink (handleCreateLink s uid url key exp meta now0).2
        key isBot now).1 = false) ∧
    (∀ now,
      entryLive ⟨key, creationVal url meta, creationExat exp⟩ now = true →
      (handleGetLink (handleCreateLink s uid url key exp meta now0).2
        key false now).2.2 = some ⟨key, JsNum.nan⟩) := by
  rw [handleCreateLink_accepted s uid url key exp meta now0 hurl hkey hpk hres
    hst hc]
  have hv : ∀ now,
      entryLive ⟨key, creationVal url meta, creationExat exp⟩ now = true →
      lookupLink
        (⟨cacheSet s.cache key (creationVal url meta) (creationExat exp),
          ({ key := key, url := url, title := storedTitle meta,
             description := storedDescription meta, image := storedImage meta,
             archived := false, expiresAt := exp, clicks := 0,
             userId := uid } :: s.store)⟩ : SysState) key now =
      some (viewOfCacheVal (.creation ⟨url, storedTitle meta,
          storedDescription meta, storedImage meta⟩),
        cacheSet s.cache key (creationVal url meta) (creationExat exp)) := by
    intro now hlive
    unfold lookupLink
    rw [show (⟨cacheSet s.cache key (creationVal url meta) (creationExat exp),
        ({ key := key, url := url, title := storedTitle meta,
           description := storedDescription meta, image := storedImage meta,
           archived := false, expiresAt := exp, clicks := 0,
           userId := uid } :: s.store)⟩ : SysState).cache =
      cacheSet s.cache key (creationVal url meta) (creationExat exp) from rfl,
      cacheGet_set_self _ _ _ _ now hlive]
    rfl
  refine ⟨rfl, cacheFind_set_self _ _ _ _, rfl, rfl, ?_, ?_⟩
  · intro isBot now hlive
    rw [handleGetLink_hit _ key isBot now _ _ hkey (hv now hlive), serve_creation]
    cases isBot <;> rfl
  · intro now hlive
    rw [handleGetLink_hit _ key false now _ _ hkey (hv now hlive), serve_creation]
    rfl

/-- Concrete inputs for the C10 witness. -/
def meta10W : Metadata := ⟨none, none, []⟩

/-- Witness for C10 at a concrete accepted creation, over empty state,
with an expiry set (so the cache entry carries an `EXAT`). -/
theorem C10_creationCache_witness :
    (handleCreateLink ⟨[], []⟩ none (("https://example.io").data) (("c10").data)
      (some 1700000000000) meta10W 0).1 = .created ∧
    cacheFind (handleCreateLink ⟨[], []⟩ none (("https://example.io").data)
      (("c10").data) (some 1700000000000) meta10W 0).2.cache (("c10").data) =
      some ⟨("c10").data, creationVal (("https://example.io").data) meta10W,
        creationExat (some 1700000000000)⟩ ∧
    creationVal (("https://example.io").data) meta10W =
      .creation ⟨("https://example.io").data, storedTitle meta10W,
        storedDescription meta10W, storedImage meta10W⟩ ∧
    viewOfCacheVal (creationVal (("https://example.io").data) meta10W) =
      ⟨("https://example.io").data, storedTitle meta10W,
        storedDescription meta10W, storedImage meta10W, false, none, none⟩ ∧
    (∀ isBot now,
      entryLive ⟨("c10").data, creationVal (("https://example.io").data) meta10W,
        creationExat (some 1700000000000)⟩ now = true →
      isGone (handleGetLink (handleCreateLink ⟨[], []⟩ none
        (("https://example.io").data) (("c10").data) (some 1700000000000)
        meta10W 0).2 (("c10").data) isBot now).1 = false) ∧
    (∀ now,
      entryLive ⟨("c10").data, creationVal (("https://example.io").data) meta10W,
        creationExat (some 1700000000000)⟩ now = true →
      (handleGetLink (handleCreateLink ⟨[], []⟩ none
        (("https://example.io").data) (("c10").data) (some 1700000000000)
        meta10W 0).2 (("c10").data) false now).2.2 =
        some ⟨("c10").data, JsNum.nan⟩) :=
  C10_creationCache ⟨[], []⟩ none (("https://example.io").data) (("c10").data)
    (some 1700000000000) meta10W 0 (by decide) (by decide) (by decide)
    (by decide) (by decide) (by decide)
